import Mathlib

/-!
Verification development for the claude-color core: the color conversion
layer (src/core/conversions.ts), the color theory generators
(src/core/theory.ts), the suggestion engine (src/core/suggestions.ts) and
the interaction/preference analysis (src/learning/interactions.ts).

JavaScript numbers are modelled as rationals.  `Math.round x` is
`⌊x + 1/2⌋` (round half toward positive infinity), which agrees with the
JS semantics on every input.  `Math.floor` is `⌊·⌋`, and the JS remainder
operator `%` truncates the quotient toward zero.
-/

set_option maxHeartbeats 1000000
set_option maxRecDepth 4000

/- The kernel cannot evaluate terms guarded by `@[irreducible]`; restore the
default reducibility of the four basic rational operations so that concrete
instances of the model evaluate by `decide`. -/
set_option allowUnsafeReducibility true
attribute [semireducible] Rat.add Rat.mul Rat.sub Rat.inv

/-- JS `Math.round`, as an integer. -/
def jroundZ (q : ℚ) : ℤ := ⌊q + 1/2⌋

/-- JS `Math.round`, as a rational-valued JS number. -/
def jround (q : ℚ) : ℚ := (jroundZ q : ℚ)

/-- JS `Math.floor`, as a rational-valued JS number. -/
def jfloor (q : ℚ) : ℚ := (⌊q⌋ : ℚ)

/-- Truncation toward zero, as performed by the JS `%` operator on the quotient. -/
def ratTrunc (q : ℚ) : ℤ := if 0 ≤ q then ⌊q⌋ else -⌊-q⌋

/-- JS remainder `a % b` (the result takes the sign of the dividend). -/
def jsMod (a b : ℚ) : ℚ := a - b * (ratTrunc (a / b) : ℚ)

/-- RGB color with JS-number channels (integers 0..255 in the data model). -/
structure RGB where
  r : ℚ
  g : ℚ
  b : ℚ
  deriving DecidableEq

/-- HSL color with JS-number components (h in 0..360, s and l in 0..100). -/
structure HSL where
  h : ℚ
  s : ℚ
  l : ℚ
  deriving DecidableEq

/-- Complete color representation (src/types.ts `Color`); the optional
`locked` flag is never read by the code under verification and is omitted. -/
structure Color where
  hex : String
  rgb : RGB
  hsl : HSL
  deriving DecidableEq

/-- Uppercase hex digit, as produced by JS `toString(16)` + `toUpperCase()`. -/
def hexDigit (n : ℕ) : Char := if n < 10 then Char.ofNat (48 + n) else Char.ofNat (55 + n)

/-- Two-digit uppercase hex rendering of a byte (`toString(16).padStart(2, '0')`). -/
def byteHex (n : ℕ) : String := String.mk [hexDigit (n / 16 % 16), hexDigit (n % 16)]

/-- `rgbToHex` from src/core/conversions.ts: round each channel, fail
(`ColorRangeError`, modelled as `none`) when a rounded channel is outside
0..255, else emit the uppercase 6-digit hex string. -/
def rgbToHex (c : RGB) : Option String :=
  let r := jroundZ c.r
  let g := jroundZ c.g
  let b := jroundZ c.b
  if 0 ≤ r ∧ r ≤ 255 ∧ 0 ≤ g ∧ g ≤ 255 ∧ 0 ≤ b ∧ b ≤ 255 then
    some ("#" ++ byteHex r.toNat ++ byteHex g.toNat ++ byteHex b.toNat)
  else
    none

/-- `rgbToHsl` from src/core/conversions.ts. -/
def rgbToHsl (rgb : RGB) : HSL :=
  let r := rgb.r / 255
  let g := rgb.g / 255
  let b := rgb.b / 255
  let maxC := max r (max g b)
  let minC := min r (min g b)
  let delta := maxC - minC
  let l := (maxC + minC) / 2
  let s := if delta ≠ 0 then
      (if l > 1/2 then delta / (2 - maxC - minC) else delta / (maxC + minC))
    else 0
  let h := if delta ≠ 0 then
      (if maxC = r then ((g - b) / delta + (if g < b then 6 else 0)) / 6
       else if maxC = g then ((b - r) / delta + 2) / 6
       else ((r - g) / delta + 4) / 6)
    else 0
  ⟨jround (h * 360), jround (s * 100), jround (l * 100)⟩

/-- The `hue2rgb` helper inside `hslToRgb`; the two sequential `if`
mutations of `t` become nested lets. -/
def hue2rgb (p q t : ℚ) : ℚ :=
  let t1 := if t < 0 then t + 1 else t
  let t2 := if t1 > 1 then t1 - 1 else t1
  if t2 < 1/6 then p + (q - p) * 6 * t2
  else if t2 < 1/2 then q
  else if t2 < 2/3 then p + (q - p) * (2/3 - t2) * 6
  else p

/-- `hslToRgb` from src/core/conversions.ts. -/
def hslToRgb (hsl : HSL) : RGB :=
  let h := hsl.h / 360
  let s := hsl.s / 100
  let l := hsl.l / 100
  let rgb01 : ℚ × ℚ × ℚ :=
    if s = 0 then (l, l, l)
    else
      let q := if l < 1/2 then l * (1 + s) else l + s - l * s
      let p := 2 * l - q
      (hue2rgb p q (h + 1/3), hue2rgb p q h, hue2rgb p q (h - 1/3))
  ⟨jround (rgb01.1 * 255), jround (rgb01.2.1 * 255), jround (rgb01.2.2 * 255)⟩

/-- `createColorFromHsl`: derive rgb and hex from the given hsl.  The range
check inside `rgbToHex` cannot fire on `hslToRgb` output for data-model HSL
inputs, so the `Option` is discharged with a default. -/
def createColorFromHsl (hsl : HSL) : Color :=
  let rgb := hslToRgb hsl
  ⟨(rgbToHex rgb).getD (""), rgb, hsl⟩

/-- `normalizeHue` from src/core/theory.ts: JS `hue % 360`, shifted into
the nonnegative range. -/
def normalizeHue (hue : ℚ) : ℚ :=
  let n := jsMod hue 360
  if n < 0 then n + 360 else n

/-- `generateComplementary` from src/core/theory.ts. -/
def generateComplementary (baseColor : Color) : List Color :=
  let baseHsl := baseColor.hsl
  [baseColor, createColorFromHsl ⟨normalizeHue (baseHsl.h + 180), baseHsl.s, baseHsl.l⟩]

/-- Hue comparison used by the `sort` comparator `(a, b) => a.hsl.h - b.hsl.h`. -/
def hueLe (a b : Color) : Prop := a.hsl.h ≤ b.hsl.h

instance : DecidableRel hueLe := fun a b => inferInstanceAs (Decidable (a.hsl.h ≤ b.hsl.h))

instance : IsTotal Color hueLe := ⟨fun a b => le_total a.hsl.h b.hsl.h⟩

instance : IsTrans Color hueLe := ⟨fun _ _ _ hab hbc => le_trans hab hbc⟩

/-- `generateAnalogous` from src/core/theory.ts.  JS `Array.prototype.sort`
with an ascending hue comparator is modelled as a stable sort by hue. -/
def generateAnalogous (baseColor : Color) (count : ℕ) : List Color :=
  let baseHsl := baseColor.hsl
  let angleRange : ℚ := 30
  let step : ℚ := if count > 1 then angleRange * 2 / ((count : ℚ) - 1) else 0
  let startAngle : ℚ := -angleRange
  let others :=
    ((List.range count).filter (fun i => i != count / 2)).map (fun (i : ℕ) =>
      createColorFromHsl
        ⟨normalizeHue (baseHsl.h + (startAngle + (i : ℚ) * step)), baseHsl.s, baseHsl.l⟩)
  List.insertionSort hueLe (baseColor :: others)

/-- `generateTriadic` from src/core/theory.ts. -/
def generateTriadic (baseColor : Color) : List Color :=
  let baseHsl := baseColor.hsl
  [baseColor,
   createColorFromHsl ⟨normalizeHue (baseHsl.h + 120), baseHsl.s, baseHsl.l⟩,
   createColorFromHsl ⟨normalizeHue (baseHsl.h + 240), baseHsl.s, baseHsl.l⟩]

/-- `generateTetradic` from src/core/theory.ts (the only call site uses the
default angle of 30). -/
def generateTetradic (baseColor : Color) (angle : ℚ) : List Color :=
  let baseHsl := baseColor.hsl
  [baseColor,
   createColorFromHsl ⟨normalizeHue (baseHsl.h + angle), baseHsl.s, baseHsl.l⟩,
   createColorFromHsl ⟨normalizeHue (baseHsl.h + 180), baseHsl.s, baseHsl.l⟩,
   createColorFromHsl ⟨normalizeHue (baseHsl.h + 180 + angle), baseHsl.s, baseHsl.l⟩]

/-- `generateMonochromatic` from src/core/theory.ts.  For `count = 1` the
source divides by zero (JS `Infinity`); every claim concerns `count ≥ 2`,
where the translation is exact. -/
def generateMonochromatic (baseColor : Color) (count : ℕ) : List Color :=
  let baseHsl := baseColor.hsl
  let minLightness : ℚ := 15
  let maxLightness : ℚ := 85
  let step : ℚ := (maxLightness - minLightness) / ((count : ℚ) - 1)
  (List.range count).map (fun (i : ℕ) =>
    createColorFromHsl ⟨baseHsl.h, baseHsl.s, jround (minLightness + (i : ℚ) * step)⟩)

/-- `generateRandomColor` from src/core/theory.ts.  `Math.random()` is an
ambient stream `rnd` of samples, consumed left to right; `k` is the index
of the next unconsumed sample. -/
def generateRandomColor (rnd : ℕ → ℚ) (k : ℕ) : Color × ℕ :=
  (createColorFromHsl
     ⟨jfloor (rnd k * 360), 70 + jfloor (rnd (k + 1) * 30), 40 + jfloor (rnd (k + 2) * 30)⟩,
   k + 3)

/-- `generateRandom` from src/core/theory.ts. -/
def generateRandom (rnd : ℕ → ℚ) : ℕ → ℕ → List Color × ℕ
  | 0, k => ([], k)
  | n + 1, k =>
    let c := generateRandomColor rnd k
    let rest := generateRandom rnd n c.2
    (c.1 :: rest.1, rest.2)

/-- The closed scheme set from src/types.ts. -/
inductive ColorScheme where
  | complementary
  | analogous
  | triadic
  | tetradic
  | monochromatic
  | random
  deriving DecidableEq

/-- The scheme tag string of each scheme variant. -/
def schemeName : ColorScheme → String
  | .complementary => "complementary"
  | .analogous => "analogous"
  | .triadic => "triadic"
  | .tetradic => "tetradic"
  | .monochromatic => "monochromatic"
  | .random => "random"

/-- `generatePalette` from src/core/theory.ts: dispatch on the scheme tag.
The scheme type is closed, so the `UnknownScheme` default branch of the
source switch is unreachable. -/
def generatePalette (rnd : ℕ → ℚ) (baseColor : Color) (scheme : ColorScheme) (count : ℕ)
    (k : ℕ) : List Color × ℕ :=
  match scheme with
  | .complementary => (generateComplementary baseColor, k)
  | .analogous => (generateAnalogous baseColor count, k)
  | .triadic => (generateTriadic baseColor, k)
  | .tetradic => (generateTetradic baseColor 30, k)
  | .monochromatic => (generateMonochromatic baseColor count, k)
  | .random => generateRandom rnd count k

/-- A palette (src/types.ts).  The nanoid id is modelled as a counter value;
the metadata timestamp is environment-dependent and carries no algorithmic
content, so it is omitted. -/
structure Palette where
  id : ℕ
  colors : List Color
  scheme : ColorScheme
  deriving DecidableEq

/-- Variation strategies from src/types.ts. -/
inductive VariationStrategy where
  | hueShift
  | saturationVariation
  | lightnessVariation
  | schemeAlternative
  | hybrid
  deriving DecidableEq

/-- A single palette suggestion (src/types.ts). -/
structure PaletteSuggestion where
  palette : Palette
  description : String
  strategy : VariationStrategy
  rank : ℕ
  deriving DecidableEq

/-- A suggestion set (src/types.ts); `generatedAt` is a wall-clock timestamp
and is omitted. -/
structure SuggestionSet where
  suggestions : List PaletteSuggestion
  baseColor : Color
  requestedScheme : ColorScheme
  deriving DecidableEq

/-- `createPalette` from src/core/suggestions.ts.  The effect state is a pair:
first the `Math.random` stream index, second the nanoid counter. -/
def createPalette (rnd : ℕ → ℚ) (baseColor : Color) (scheme : ColorScheme) (st : ℕ × ℕ) :
    Palette × ℕ × ℕ :=
  let res := generatePalette rnd baseColor scheme 5 st.1
  (⟨st.2, res.1, scheme⟩, res.2, st.2 + 1)

/-- `adjustSaturation` from src/core/suggestions.ts. -/
def adjustSaturation (color : Color) (delta : ℚ) : Color :=
  let newS := max 0 (min 100 (color.hsl.s + delta))
  createColorFromHsl ⟨color.hsl.h, newS, color.hsl.l⟩

/-- `adjustHue` from src/core/suggestions.ts (two sequential wrap checks). -/
def adjustHue (color : Color) (delta : ℚ) : Color :=
  let h0 := color.hsl.h + delta
  let h1 := if h0 < 0 then h0 + 360 else h0
  let h2 := if h1 ≥ 360 then h1 - 360 else h1
  createColorFromHsl ⟨h2, color.hsl.s, color.hsl.l⟩

/-- `adjustLightness` from src/core/suggestions.ts (clamped to 10..90). -/
def adjustLightness (color : Color) (delta : ℚ) : Color :=
  let newL := max 10 (min 90 (color.hsl.l + delta))
  createColorFromHsl ⟨color.hsl.h, color.hsl.s, newL⟩

/-- `getAlternativeScheme` from src/core/suggestions.ts. -/
def getAlternativeScheme : ColorScheme → ColorScheme
  | .complementary => .triadic
  | .analogous => .complementary
  | .triadic => .analogous
  | .tetradic => .complementary
  | .monochromatic => .analogous
  | .random => .analogous

/-- `generateSuggestions` from src/core/suggestions.ts.  The count argument
is an integer (the TS signature admits any number, but the spec and every
call site use integers).  The thrown error is modelled as `Except.error`. -/
def generateSuggestions (rnd : ℕ → ℚ) (baseColor : Color) (scheme : ColorScheme) (count : ℤ)
    (st : ℕ × ℕ) : Except String (SuggestionSet × ℕ × ℕ) :=
  if count < 1 ∨ 10 < count then
    Except.error ("Suggestion count must be between 1 and 10")
  else
    let r1 := createPalette rnd baseColor scheme st
    let acc1 : List PaletteSuggestion :=
      [⟨r1.1, ("Original ") ++ schemeName scheme ++ (" palette"), .hueShift, 1⟩]
    let a2 :=
      if 2 ≤ count then
        let r := createPalette rnd (adjustSaturation baseColor 15) scheme r1.2
        (acc1 ++ [⟨r.1, ("Vibrant ") ++ schemeName scheme ++ (" (higher saturation)"),
          .saturationVariation, 2⟩], r.2)
      else (acc1, r1.2)
    let a3 :=
      if 3 ≤ count then
        let r := createPalette rnd (adjustSaturation baseColor (-15)) scheme a2.2
        (a2.1 ++ [⟨r.1, ("Muted ") ++ schemeName scheme ++ (" (softer tones)"),
          .saturationVariation, 3⟩], r.2)
      else a2
    let a4 :=
      if 4 ≤ count then
        let r := createPalette rnd (adjustHue baseColor (-15)) scheme a3.2
        (a3.1 ++ [⟨r.1, ("Warm ") ++ schemeName scheme ++ (" (warmer hues)"),
          .hueShift, 4⟩], r.2)
      else a3
    let a5 :=
      if 5 ≤ count then
        let r := createPalette rnd (adjustHue baseColor 15) scheme a4.2
        (a4.1 ++ [⟨r.1, ("Cool ") ++ schemeName scheme ++ (" (cooler hues)"),
          .hueShift, 5⟩], r.2)
      else a4
    let a6 :=
      if 6 ≤ count then
        let r := createPalette rnd (adjustLightness baseColor 10) scheme a5.2
        (a5.1 ++ [⟨r.1, ("Light ") ++ schemeName scheme ++ (" (brighter tones)"),
          .lightnessVariation, 6⟩], r.2)
      else a5
    let a7 :=
      if 7 ≤ count then
        let r := createPalette rnd (adjustLightness baseColor (-10)) scheme a6.2
        (a6.1 ++ [⟨r.1, ("Dark ") ++ schemeName scheme ++ (" (deeper tones)"),
          .lightnessVariation, 7⟩], r.2)
      else a6
    let a8 :=
      if 8 ≤ count then
        if scheme ≠ ColorScheme.random then
          let altScheme := getAlternativeScheme scheme
          let r := createPalette rnd baseColor altScheme a7.2
          (a7.1 ++ [⟨r.1, ("Alternative ") ++ schemeName altScheme ++ (" scheme"),
            .schemeAlternative, 8⟩], r.2)
        else
          let r := createPalette rnd (adjustHue baseColor 30) ColorScheme.random a7.2
          (a7.1 ++ [⟨r.1, ("Shifted random palette"), .hueShift, 8⟩], r.2)
      else a7
    let a9 :=
      if 9 ≤ count then
        let r := createPalette rnd (adjustHue (adjustSaturation baseColor 10) (-10)) scheme a8.2
        (a8.1 ++ [⟨r.1, ("Warm vibrant ") ++ schemeName scheme ++ (" (hybrid)"),
          .hybrid, 9⟩], r.2)
      else a8
    let a10 :=
      if 10 ≤ count then
        let r := createPalette rnd (adjustHue (adjustSaturation baseColor (-10)) 10) scheme a9.2
        (a9.1 ++ [⟨r.1, ("Cool muted ") ++ schemeName scheme ++ (" (hybrid)"),
          .hybrid, 10⟩], r.2)
      else a9
    Except.ok (⟨a10.1.take count.toNat, baseColor, scheme⟩, a10.2)

/-- Interaction kinds (src/types.ts `InteractionType`); `export` is a Lean
keyword, hence the primed constructor name. -/
inductive InteractionType where
  | generate
  | save
  | edit
  | view
  | search
  | export'
  | delete
  deriving DecidableEq

/-- Modelled from the spec: the `UserInteraction` record is declared in the
repository's src/types.ts, which is not among the provided sources.  Spec
section 3 gives its shape; only the fields that the analyzed code reads are
modelled (`type`, `colors`, `scheme`, and the `tags` list of the free-form
metadata bag).  The opaque `id`, `timestamp` and `paletteId` fields are
never read by the functions under verification. -/
structure UserInteraction where
  type : InteractionType
  colors : List Color
  scheme : String
  tags : List String
  deriving DecidableEq

/-- A min/max range of JS numbers. -/
structure PrefRange where
  min : ℚ
  max : ℚ
  deriving DecidableEq

/-- A hue histogram bucket. -/
structure HueRangeBucket where
  min : ℚ
  max : ℚ
  count : ℚ
  name : String
  deriving DecidableEq

/-- Aggregated user preferences (src/learning/interactions.ts
`UserPreferences`).  JS `Record<string, number>` objects are modelled as
insertion-ordered association lists. -/
structure UserPreferences where
  totalInteractions : ℚ
  favoriteSchemes : List (String × ℚ)
  favoriteHueRanges : List HueRangeBucket
  favoriteSaturationRange : PrefRange
  favoriteLightnessRange : PrefRange
  commonTags : List (String × ℚ)
  recentActivity : List UserInteraction
  deriving DecidableEq

/-- Result record of `analyzeColorPreferences`. -/
structure ColorPrefs where
  huePreferences : List ℚ
  saturationPreference : ℚ
  lightnessPreference : ℚ
  deriving DecidableEq

/-- `analyzeColorPreferences` from src/learning/interactions.ts. -/
def analyzeColorPreferences (interactions : List UserInteraction) : ColorPrefs :=
  if interactions.length = 0 then ⟨[], 7/10, 1/2⟩
  else
    let allColors := interactions.foldr (fun i acc =>
      if i.type = InteractionType.save ∨ i.type = InteractionType.edit then i.colors ++ acc
      else acc) []
    if allColors.length = 0 then ⟨[], 7/10, 1/2⟩
    else
      ⟨allColors.map (fun c => c.hsl.h),
       (allColors.map (fun c => c.hsl.s)).sum / (allColors.length : ℚ),
       (allColors.map (fun c => c.hsl.l)).sum / (allColors.length : ℚ)⟩

/-- `(obj[k] || 0) + 1` on an association list: bump the key in place or
append it. -/
def incKey : List (String × ℚ) → String → List (String × ℚ)
  | [], k => [(k, 1)]
  | (k', v) :: rest, k => if k' = k then (k', v + 1) :: rest else (k', v) :: incKey rest k

/-- `obj[k] || 0` on an association list. -/
def lookupD (l : List (String × ℚ)) (k : String) : ℚ :=
  match l.find? (fun p => p.1 = k) with
  | some p => p.2
  | none => 0

/-- `analyzeSchemePreferences` from src/learning/interactions.ts. -/
def analyzeSchemePreferences (interactions : List UserInteraction) : List (String × ℚ) :=
  interactions.foldl (fun acc i =>
    if i.type = InteractionType.save ∨ i.type = InteractionType.generate then incKey acc i.scheme
    else acc) []

/-- `calculatePreferenceScore` from src/learning/interactions.ts.  The JS
function returns `Math.round(...)`, an integer-valued number; the model
returns that integer. -/
def calculatePreferenceScore (palette : Palette) (preferences : UserPreferences) : ℤ :=
  let score0 : ℚ := 50
  let schemeCount := lookupD preferences.favoriteSchemes (schemeName palette.scheme)
  let totalSchemeInteractions := (preferences.favoriteSchemes.map Prod.snd).sum
  let score1 :=
    if 0 < totalSchemeInteractions then score0 + schemeCount / totalSchemeInteractions * 20
    else score0
  let colorPrefs := analyzeColorPreferences preferences.recentActivity
  let score2 :=
    if 0 < colorPrefs.huePreferences.length then
      let paletteHues := palette.colors.map (fun c => c.hsl.h)
      let hueMatches := (paletteHues.filter (fun h =>
        colorPrefs.huePreferences.any (fun ph => decide (|h - ph| < 30)))).length
      let sA := score1 + (hueMatches : ℚ) / (palette.colors.length : ℚ) * 15
      let avgPaletteSaturation :=
        (palette.colors.map (fun c => c.hsl.s)).sum / (palette.colors.length : ℚ)
      let sB := sA + (1 - |avgPaletteSaturation - colorPrefs.saturationPreference|) * (15/2)
      let avgPaletteLightness :=
        (palette.colors.map (fun c => c.hsl.l)).sum / (palette.colors.length : ℚ)
      sB + (1 - |avgPaletteLightness - colorPrefs.lightnessPreference|) * (15/2)
    else score1
  jroundZ (max 0 (min 100 score2))

/-- The seven fixed hue buckets of `buildUserPreferences`. -/
def hueBuckets0 : List HueRangeBucket :=
  [⟨0, 30, 0, "red-orange"⟩, ⟨30, 60, 0, "yellow"⟩, ⟨60, 120, 0, "green"⟩,
   ⟨120, 180, 0, "cyan"⟩, ⟨180, 240, 0, "blue"⟩, ⟨240, 300, 0, "purple"⟩,
   ⟨300, 360, 0, "magenta"⟩]

/-- Increment the first bucket whose half-open range contains the hue
(`hueRanges.find(r => hue >= r.min && hue < r.max)` and `range.count++`). -/
def bumpBucket (hue : ℚ) : List HueRangeBucket → List HueRangeBucket
  | [] => []
  | b :: rest =>
    if b.min ≤ hue ∧ hue < b.max then ⟨b.min, b.max, b.count + 1, b.name⟩ :: rest
    else b :: bumpBucket hue rest

/-- `buildUserPreferences` from src/learning/interactions.ts;
`interactions.slice(-20)` is the last 20 entries in order. -/
def buildUserPreferences (interactions : List UserInteraction) : UserPreferences :=
  let schemePreferences := analyzeSchemePreferences interactions
  let colorPrefs := analyzeColorPreferences interactions
  let tagCounts := interactions.foldl (fun acc i => i.tags.foldl incKey acc) []
  let hueRanges := colorPrefs.huePreferences.foldl (fun acc hue => bumpBucket hue acc) hueBuckets0
  ⟨(interactions.length : ℚ),
   schemePreferences,
   hueRanges.filter (fun r => decide (0 < r.count)),
   ⟨max 0 (colorPrefs.saturationPreference - 1/5), min 1 (colorPrefs.saturationPreference + 1/5)⟩,
   ⟨max 0 (colorPrefs.lightnessPreference - 1/5), min 1 (colorPrefs.lightnessPreference + 1/5)⟩,
   tagCounts,
   interactions.drop (interactions.length - 20)⟩

/-! ### Rounding helpers -/

theorem jroundZ_intCast (n : ℤ) : jroundZ (n : ℚ) = n := by
  unfold jroundZ
  rw [add_comm, Int.floor_add_int]
  norm_num

theorem le_jroundZ {n : ℤ} {x : ℚ} (h : (n : ℚ) ≤ x) : n ≤ jroundZ x :=
  Int.le_floor.mpr (by linarith)

theorem jroundZ_le {x : ℚ} {n : ℤ} (h : x ≤ (n : ℚ)) : jroundZ x ≤ n := by
  calc jroundZ x ≤ jroundZ (n : ℚ) := Int.floor_le_floor (by linarith)
  _ = n := jroundZ_intCast n

theorem jroundZ_eq {n : ℤ} {x : ℚ} (h1 : -(1/2) ≤ x - n) (h2 : x - n < 1/2) :
    jroundZ x = n := by
  unfold jroundZ
  rw [Int.floor_eq_iff]
  constructor
  · linarith
  · linarith

theorem jround_le (x : ℚ) : jround x ≤ x + 1/2 := by
  unfold jround jroundZ
  exact_mod_cast Int.floor_le (x + 1/2)

theorem lt_jround (x : ℚ) : x - 1/2 < jround x := by
  unfold jround jroundZ
  have := Int.lt_floor_add_one (x + 1/2)
  push_cast at this ⊢
  linarith

theorem jround_eq_intCast {x : ℚ} {n : ℤ} (h : jroundZ x = n) : jround x = (n : ℚ) := by
  rw [jround, h]

theorem jround_mono {x y : ℚ} (h : x ≤ y) : jround x ≤ jround y := by
  unfold jround jroundZ
  exact_mod_cast Int.floor_le_floor (by linarith)

/-- A canonical red test color. -/
def cRed : Color := ⟨"#FF0000", ⟨255, 0, 0⟩, ⟨0, 100, 50⟩⟩

/-! ### C2, C3, C10: preference scorer range and dependence -/

/-- C2: for every palette (with the data model's non-empty color list) and
every UserPreferences value, `calculatePreferenceScore` returns an integer
in the range 0..100: the raw sum of the base score and bonuses is clamped
to the interval and rounded. -/
theorem calculatePreferenceScore_in_range (palette : Palette) (preferences : UserPreferences)
    (_hne : palette.colors ≠ []) :
    0 ≤ calculatePreferenceScore palette preferences ∧
      calculatePreferenceScore palette preferences ≤ 100 := by
  simp only [calculatePreferenceScore]
  constructor
  · exact le_jroundZ (by exact_mod_cast le_max_left (0:ℚ) _)
  · exact jroundZ_le (by exact_mod_cast max_le (by norm_num) (min_le_left (100:ℚ) _))

theorem calculatePreferenceScore_in_range_witness :
    (⟨0, [cRed], ColorScheme.complementary⟩ : Palette).colors ≠ [] ∧
      0 ≤ calculatePreferenceScore ⟨0, [cRed], ColorScheme.complementary⟩
            (buildUserPreferences []) ∧
      calculatePreferenceScore ⟨0, [cRed], ColorScheme.complementary⟩
            (buildUserPreferences []) ≤ 100 :=
  ⟨by decide,
   (calculatePreferenceScore_in_range ⟨0, [cRed], ColorScheme.complementary⟩
      (buildUserPreferences []) (by decide)).1,
   (calculatePreferenceScore_in_range ⟨0, [cRed], ColorScheme.complementary⟩
      (buildUserPreferences []) (by decide)).2⟩

/-- C3: with an empty interaction history no scheme bonus and no color
bonuses apply, so every palette scores exactly the base score 50. -/
theorem calculatePreferenceScore_empty_history (palette : Palette) :
    calculatePreferenceScore palette (buildUserPreferences []) = 50 := by
  have h : buildUserPreferences [] =
      ⟨0, [], [], ⟨1/2, 9/10⟩, ⟨3/10, 7/10⟩, [], []⟩ := by decide
  rw [h]
  simp only [calculatePreferenceScore, analyzeColorPreferences]
  norm_num
  decide

/-- C10: the score depends on a UserPreferences value only through its
`favoriteSchemes` and `recentActivity` fields; the derived statistics
(`favoriteHueRanges`, saturation/lightness ranges, `commonTags`,
`totalInteractions`) never influence it, because the color bonuses are
recomputed from `recentActivity`. -/
theorem calculatePreferenceScore_ignores_profile_fields (palette : Palette)
    (p1 p2 : UserPreferences) (hs : p1.favoriteSchemes = p2.favoriteSchemes)
    (hr : p1.recentActivity = p2.recentActivity) :
    calculatePreferenceScore palette p1 = calculatePreferenceScore palette p2 := by
  simp only [calculatePreferenceScore, hs, hr]

def prefsA : UserPreferences := ⟨0, [("triadic", 2)], [], ⟨0, 1⟩, ⟨0, 1⟩, [], []⟩

def prefsB : UserPreferences :=
  ⟨99, [("triadic", 2)], [⟨0, 30, 5, "red-orange"⟩], ⟨1/2, 9/10⟩, ⟨1/4, 3/4⟩,
   [("warm", 3)], []⟩

theorem calculatePreferenceScore_ignores_profile_fields_witness :
    prefsA.favoriteSchemes = prefsB.favoriteSchemes ∧
      prefsA.recentActivity = prefsB.recentActivity ∧
      calculatePreferenceScore ⟨0, [cRed], ColorScheme.triadic⟩ prefsA =
        calculatePreferenceScore ⟨0, [cRed], ColorScheme.triadic⟩ prefsB :=
  ⟨rfl, rfl,
   calculatePreferenceScore_ignores_profile_fields ⟨0, [cRed], ColorScheme.triadic⟩
     prefsA prefsB rfl rfl⟩

/-! ### C8: saturation/lightness preferred ranges -/

/-- A saved interaction holding a single data-model color of saturation 80
(hsl saturation is an integer percentage 0..100). -/
def saveS80 : UserInteraction :=
  ⟨.save, [createColorFromHsl ⟨0, 80, 50⟩], "complementary", []⟩

/-- C8: evaluating `buildUserPreferences` on one saved color with
saturation 80 (valid per the data model, where saturation is 0..100)
returns `favoriteSaturationRange = (79.8, 1)`: the min bound is only
clamped from below and the max only from above, the analyzer mixes the
0..100 data-model scale with the 0..1 scale its defaults and clamps
assume, and the resulting min exceeds both 1 and the max. -/
theorem buildUserPreferences_range_scale_bug :
    (buildUserPreferences [saveS80]).favoriteSaturationRange.min = 399/5 ∧
      (buildUserPreferences [saveS80]).favoriteSaturationRange.max = 1 ∧
      (buildUserPreferences [saveS80]).favoriteSaturationRange.max <
        (buildUserPreferences [saveS80]).favoriteSaturationRange.min := by
  decide

/-! ### C7: the hue bonus match predicate -/

/-- Circular distance on the 360-degree color wheel. -/
def circDist (a b : ℚ) : ℚ := min |a - b| (360 - |a - b|)

/-- Hue match by circular distance, as the claim states it. -/
def circMatch (h ph : ℚ) : Bool := decide (circDist h ph < 30)

/-- Hue match by plain absolute difference, as the code computes it. -/
def absMatch (h ph : ℚ) : Bool := decide (|h - ph| < 30)

/-- The scorer as the spec describes it (base score plus four separately
stated bonuses, clamped and rounded), parameterized by the hue-match
predicate.  Used to settle C7 by comparison with the source translation. -/
def specScoreWith (hueMatch : ℚ → ℚ → Bool) (palette : Palette)
    (preferences : UserPreferences) : ℤ :=
  let colorPrefs := analyzeColorPreferences preferences.recentActivity
  let totalSchemes := (preferences.favoriteSchemes.map Prod.snd).sum
  let schemeBonus : ℚ :=
    if 0 < totalSchemes then
      lookupD preferences.favoriteSchemes (schemeName palette.scheme) / totalSchemes * 20
    else 0
  let hueBonus : ℚ :=
    if 0 < colorPrefs.huePreferences.length then
      (((palette.colors.map (fun c => c.hsl.h)).filter (fun h =>
          colorPrefs.huePreferences.any (fun ph => hueMatch h ph))).length : ℚ) /
        (palette.colors.length : ℚ) * 15
    else 0
  let satBonus : ℚ :=
    if 0 < colorPrefs.huePreferences.length then
      (1 - |(palette.colors.map (fun c => c.hsl.s)).sum / (palette.colors.length : ℚ) -
        colorPrefs.saturationPreference|) * (15/2)
    else 0
  let lightBonus : ℚ :=
    if 0 < colorPrefs.huePreferences.length then
      (1 - |(palette.colors.map (fun c => c.hsl.l)).sum / (palette.colors.length : ℚ) -
        colorPrefs.lightnessPreference|) * (15/2)
    else 0
  jroundZ (max 0 (min 100 (50 + schemeBonus + hueBonus + satBonus + lightBonus)))

/-- A palette holding one color of hue 359. -/
def palette359 : Palette := ⟨0, [createColorFromHsl ⟨359, 80, 50⟩], ColorScheme.complementary⟩

/-- Preferences whose single preferred hue is 1. -/
def prefsHue1 : UserPreferences :=
  buildUserPreferences [⟨.save, [createColorFromHsl ⟨1, 80, 50⟩], "triadic", []⟩]

/-- C7 counterexample: for a palette of hue 359 against preferred hue 1
(circular distance 2, absolute difference 358) the source awards no hue
bonus and scores 65, while the circular-distance reading of the claim
awards the full bonus and scores 80. -/
theorem hue_bonus_not_circular :
    calculatePreferenceScore palette359 prefsHue1 = 65 ∧
      specScoreWith circMatch palette359 prefsHue1 = 80 ∧
      calculatePreferenceScore palette359 prefsHue1 ≠
        specScoreWith circMatch palette359 prefsHue1 := by
  decide

/-- C7 amended: the hue bonus is 15 times the fraction of palette colors
whose hue differs from some preferred hue by strictly less than 30 in
plain absolute value (not circular distance); it is zero when the
preferred-hue list is empty.  Stated as: the source scorer coincides with
the spec-shaped scorer whose match predicate is the absolute difference. -/
theorem calculatePreferenceScore_eq_specScore_abs (palette : Palette)
    (preferences : UserPreferences) :
    calculatePreferenceScore palette preferences =
      specScoreWith absMatch palette preferences := by
  simp only [calculatePreferenceScore, specScoreWith, absMatch]
  split_ifs <;> first
  | rfl
  | (congr 1; ring_nf)

/-! ### C4: ranges of the conversion layer -/

/-- The normalized channel maximum inside `rgbToHsl`. -/
def rgbMaxC (rgb : RGB) : ℚ := max (rgb.r / 255) (max (rgb.g / 255) (rgb.b / 255))

/-- The normalized channel minimum inside `rgbToHsl`. -/
def rgbMinC (rgb : RGB) : ℚ := min (rgb.r / 255) (min (rgb.g / 255) (rgb.b / 255))

/-- The channel spread inside `rgbToHsl`. -/
def rgbDelta (rgb : RGB) : ℚ := rgbMaxC rgb - rgbMinC rgb

/-- The unrounded lightness fraction inside `rgbToHsl`. -/
def lightFrac (rgb : RGB) : ℚ := (rgbMaxC rgb + rgbMinC rgb) / 2

/-- The unrounded saturation fraction inside `rgbToHsl`. -/
def satFrac (rgb : RGB) : ℚ :=
  if rgbDelta rgb ≠ 0 then
    (if lightFrac rgb > 1/2 then rgbDelta rgb / (2 - rgbMaxC rgb - rgbMinC rgb)
     else rgbDelta rgb / (rgbMaxC rgb + rgbMinC rgb))
  else 0

/-- The unrounded hue fraction (of a full turn) inside `rgbToHsl`. -/
def hueFrac (rgb : RGB) : ℚ :=
  if rgbDelta rgb ≠ 0 then
    (if rgbMaxC rgb = rgb.r / 255 then
       ((rgb.g / 255 - rgb.b / 255) / rgbDelta rgb +
         (if rgb.g / 255 < rgb.b / 255 then 6 else 0)) / 6
     else if rgbMaxC rgb = rgb.g / 255 then
       ((rgb.b / 255 - rgb.r / 255) / rgbDelta rgb + 2) / 6
     else ((rgb.r / 255 - rgb.g / 255) / rgbDelta rgb + 4) / 6)
  else 0

/-- `rgbToHsl` written through the named fraction functions. -/
theorem rgbToHsl_eq (rgb : RGB) :
    rgbToHsl rgb =
      ⟨jround (hueFrac rgb * 360), jround (satFrac rgb * 100), jround (lightFrac rgb * 100)⟩ :=
  rfl

theorem rgbMinC_le_rgbMaxC (rgb : RGB) : rgbMinC rgb ≤ rgbMaxC rgb :=
  le_trans (min_le_left _ _) (le_max_left _ _)

theorem hueFrac_bounds (rgb : RGB) : 0 ≤ hueFrac rgb ∧ hueFrac rgb ≤ 1 := by
  have hrle : rgb.r / 255 ≤ rgbMaxC rgb := le_max_left _ _
  have hgle : rgb.g / 255 ≤ rgbMaxC rgb := le_trans (le_max_left _ _) (le_max_right _ _)
  have hble : rgb.b / 255 ≤ rgbMaxC rgb := le_trans (le_max_right _ _) (le_max_right _ _)
  have hrge : rgbMinC rgb ≤ rgb.r / 255 := min_le_left _ _
  have hgge : rgbMinC rgb ≤ rgb.g / 255 := le_trans (min_le_right _ _) (min_le_left _ _)
  have hbge : rgbMinC rgb ≤ rgb.b / 255 := le_trans (min_le_right _ _) (min_le_right _ _)
  unfold hueFrac
  split_ifs with hd hr hgb hg
  · -- max is the red channel, green below blue
    have hdpos : 0 < rgbDelta rgb :=
      lt_of_le_of_ne (by unfold rgbDelta; linarith [rgbMinC_le_rgbMaxC rgb]) (Ne.symm hd)
    have hlow : (-1 : ℚ) ≤ (rgb.g / 255 - rgb.b / 255) / rgbDelta rgb := by
      rw [le_div_iff₀ hdpos]
      unfold rgbDelta at *
      linarith
    have hup : (rgb.g / 255 - rgb.b / 255) / rgbDelta rgb ≤ 0 :=
      div_nonpos_of_nonpos_of_nonneg (by linarith) hdpos.le
    constructor <;> linarith
  · -- max is the red channel, green at or above blue
    have hdpos : 0 < rgbDelta rgb :=
      lt_of_le_of_ne (by unfold rgbDelta; linarith [rgbMinC_le_rgbMaxC rgb]) (Ne.symm hd)
    have hlow : (0 : ℚ) ≤ (rgb.g / 255 - rgb.b / 255) / rgbDelta rgb :=
      div_nonneg (by linarith) hdpos.le
    have hup : (rgb.g / 255 - rgb.b / 255) / rgbDelta rgb ≤ 1 := by
      rw [div_le_one hdpos]
      unfold rgbDelta at *
      linarith
    constructor <;> linarith
  · -- max is the green channel
    have hdpos : 0 < rgbDelta rgb :=
      lt_of_le_of_ne (by unfold rgbDelta; linarith [rgbMinC_le_rgbMaxC rgb]) (Ne.symm hd)
    have hlow : (-1 : ℚ) ≤ (rgb.b / 255 - rgb.r / 255) / rgbDelta rgb := by
      rw [le_div_iff₀ hdpos]
      unfold rgbDelta at *
      linarith
    have hup : (rgb.b / 255 - rgb.r / 255) / rgbDelta rgb ≤ 1 := by
      rw [div_le_one hdpos]
      unfold rgbDelta at *
      linarith
    constructor <;> linarith
  · -- max is the blue channel
    have hdpos : 0 < rgbDelta rgb :=
      lt_of_le_of_ne (by unfold rgbDelta; linarith [rgbMinC_le_rgbMaxC rgb]) (Ne.symm hd)
    have hlow : (-1 : ℚ) ≤ (rgb.r / 255 - rgb.g / 255) / rgbDelta rgb := by
      rw [le_div_iff₀ hdpos]
      unfold rgbDelta at *
      linarith
    have hup : (rgb.r / 255 - rgb.g / 255) / rgbDelta rgb ≤ 1 := by
      rw [div_le_one hdpos]
      unfold rgbDelta at *
      linarith
    constructor <;> linarith
  · norm_num

theorem satFrac_bounds (rgb : RGB) (hr0 : 0 ≤ rgb.r) (hr1 : rgb.r ≤ 255)
    (hg0 : 0 ≤ rgb.g) (hg1 : rgb.g ≤ 255) (hb0 : 0 ≤ rgb.b) (hb1 : rgb.b ≤ 255) :
    0 ≤ satFrac rgb ∧ satFrac rgb ≤ 1 := by
  have hmax1 : rgbMaxC rgb ≤ 1 := by
    unfold rgbMaxC
    refine max_le (by linarith) (max_le (by linarith) (by linarith))
  have hmin0 : 0 ≤ rgbMinC rgb := by
    unfold rgbMinC
    refine le_min (by positivity) (le_min (by positivity) (by positivity))
  unfold satFrac
  split_ifs with hd hl
  · -- lightness above one half
    have hdpos : 0 < rgbDelta rgb :=
      lt_of_le_of_ne (by unfold rgbDelta; linarith [rgbMinC_le_rgbMaxC rgb]) (Ne.symm hd)
    have hsum : 1 < rgbMaxC rgb + rgbMinC rgb := by
      unfold lightFrac at hl
      linarith
    have hden : 0 < 2 - rgbMaxC rgb - rgbMinC rgb := by
      unfold rgbDelta at hdpos
      linarith
    constructor
    · exact div_nonneg hdpos.le hden.le
    · rw [div_le_one hden]
      unfold rgbDelta
      linarith
  · -- lightness at or below one half
    have hdpos : 0 < rgbDelta rgb :=
      lt_of_le_of_ne (by unfold rgbDelta; linarith [rgbMinC_le_rgbMaxC rgb]) (Ne.symm hd)
    have hden : 0 < rgbMaxC rgb + rgbMinC rgb := by
      unfold rgbDelta at hdpos
      linarith
    constructor
    · exact div_nonneg hdpos.le hden.le
    · rw [div_le_one hden]
      unfold rgbDelta
      linarith
  · norm_num

theorem lightFrac_bounds (rgb : RGB) (hr0 : 0 ≤ rgb.r) (hr1 : rgb.r ≤ 255)
    (hg0 : 0 ≤ rgb.g) (hg1 : rgb.g ≤ 255) (hb0 : 0 ≤ rgb.b) (hb1 : rgb.b ≤ 255) :
    0 ≤ lightFrac rgb ∧ lightFrac rgb ≤ 1 := by
  have hmax1 : rgbMaxC rgb ≤ 1 := by
    unfold rgbMaxC
    refine max_le (by linarith) (max_le (by linarith) (by linarith))
  have hmin0 : 0 ≤ rgbMinC rgb := by
    unfold rgbMinC
    refine le_min (by positivity) (le_min (by positivity) (by positivity))
  have := rgbMinC_le_rgbMaxC rgb
  unfold lightFrac
  constructor <;> linarith

theorem jsMod_360_bounds (q : ℚ) : -360 < jsMod q 360 ∧ jsMod q 360 < 360 := by
  have f1 := Int.floor_le (q / 360)
  have f2 := Int.lt_floor_add_one (q / 360)
  have f3 := Int.floor_le (-(q / 360))
  have f4 := Int.lt_floor_add_one (-(q / 360))
  unfold jsMod ratTrunc
  by_cases hx : 0 ≤ q / 360
  · rw [if_pos hx]
    constructor <;> linarith
  · rw [if_neg hx]
    push_cast
    constructor <;> linarith

theorem normalizeHue_mem (q : ℚ) : 0 ≤ normalizeHue q ∧ normalizeHue q < 360 := by
  obtain ⟨hlo, hhi⟩ := jsMod_360_bounds q
  unfold normalizeHue
  by_cases hn : jsMod q 360 < 0
  · rw [if_pos hn]
    constructor <;> linarith
  · rw [if_neg hn]
    have := not_lt.mp hn
    constructor <;> linarith

/-- C4 counterexample: the RGB triple (255, 0, 1) — integer channels in
0..255 — is converted to hue exactly 360, not a value strictly below 360:
the unrounded hue fraction 1529/1530 rounds up to a full turn. -/
theorem rgbToHsl_hue_reaches_360 :
    (rgbToHsl ⟨255, 0, 1⟩).h = 360 ∧ ¬ (rgbToHsl ⟨255, 0, 1⟩).h < 360 := by
  decide

/-- C4 amended: for every RGB triple with channels in 0..255, `rgbToHsl`
returns an integer hue in the closed interval 0..360 (the endpoint 360 is
attainable) and integer saturation and lightness in 0..100; hue arithmetic
through `normalizeHue` always lands in the half-open interval 0..360. -/
theorem rgbToHsl_ranges (rgb : RGB) (hr0 : 0 ≤ rgb.r) (hr1 : rgb.r ≤ 255)
    (hg0 : 0 ≤ rgb.g) (hg1 : rgb.g ≤ 255) (hb0 : 0 ≤ rgb.b) (hb1 : rgb.b ≤ 255) :
    (∃ z : ℤ, (rgbToHsl rgb).h = (z : ℚ) ∧ 0 ≤ z ∧ z ≤ 360) ∧
      (∃ z : ℤ, (rgbToHsl rgb).s = (z : ℚ) ∧ 0 ≤ z ∧ z ≤ 100) ∧
      (∃ z : ℤ, (rgbToHsl rgb).l = (z : ℚ) ∧ 0 ≤ z ∧ z ≤ 100) ∧
      ∀ q : ℚ, 0 ≤ normalizeHue q ∧ normalizeHue q < 360 := by
  rw [rgbToHsl_eq]
  obtain ⟨hh0, hh1⟩ := hueFrac_bounds rgb
  obtain ⟨hs0, hs1⟩ := satFrac_bounds rgb hr0 hr1 hg0 hg1 hb0 hb1
  obtain ⟨hl0, hl1⟩ := lightFrac_bounds rgb hr0 hr1 hg0 hg1 hb0 hb1
  refine ⟨⟨jroundZ (hueFrac rgb * 360), rfl, ?_, ?_⟩,
    ⟨jroundZ (satFrac rgb * 100), rfl, ?_, ?_⟩,
    ⟨jroundZ (lightFrac rgb * 100), rfl, ?_, ?_⟩,
    normalizeHue_mem⟩
  · exact le_jroundZ (by push_cast; nlinarith)
  · exact jroundZ_le (by push_cast; nlinarith)
  · exact le_jroundZ (by push_cast; nlinarith)
  · exact jroundZ_le (by push_cast; nlinarith)
  · exact le_jroundZ (by push_cast; nlinarith)
  · exact jroundZ_le (by push_cast; nlinarith)

theorem rgbToHsl_ranges_witness :
    ((0 : ℚ) ≤ 255 ∧ (255 : ℚ) ≤ 255 ∧ (0 : ℚ) ≤ 0 ∧ (0 : ℚ) ≤ 255 ∧
        (0 : ℚ) ≤ 1 ∧ (1 : ℚ) ≤ 255) ∧
      0 ≤ normalizeHue 400 ∧ normalizeHue 400 < 360 :=
  ⟨by norm_num,
   (rgbToHsl_ranges ⟨255, 0, 1⟩ (by norm_num) (by norm_num) (by norm_num) (by norm_num)
      (by norm_num) (by norm_num)).2.2.2 400⟩

/-! ### C6: monochromatic palettes -/

theorem hsl_createColorFromHsl (x : HSL) : (createColorFromHsl x).hsl = x := rfl

theorem jround_lt_jround_of_add_one_le {x y : ℚ} (h : x + 1 ≤ y) : jround x < jround y := by
  unfold jround jroundZ
  have h1 : (⌊x + 1/2⌋ : ℤ) + 1 = ⌊x + 1/2 + 1⌋ := (Int.floor_add_one (x + 1/2)).symm
  have h2 : (⌊x + 1/2 + 1⌋ : ℤ) ≤ ⌊y + 1/2⌋ := Int.floor_le_floor (by linarith)
  exact_mod_cast lt_of_lt_of_le (by omega : (⌊x + 1/2⌋ : ℤ) < ⌊x + 1/2 + 1⌋) h2

/-- C6 counterexample: for count 72 the evenly stepped lightness values
collapse under rounding (entries 35 and 36 both round to 50), so the
lightness sequence is not strictly increasing. -/
theorem generateMonochromatic_72_not_strictly_increasing :
    ¬ List.Pairwise (fun a b : Color => a.hsl.l < b.hsl.l) (generateMonochromatic cRed 72) := by
  decide

/-- C6 amended: for every base color and every count with 2 ≤ count ≤ 71,
`generateMonochromatic` returns exactly count colors sharing the base hue
and saturation, with strictly increasing lightness starting at 15 and
ending at 85, stepped evenly.  (For count ≥ 72 the even step is below 1
and rounding produces repeated lightness values.) -/
theorem generateMonochromatic_spec (base : Color) (count : ℕ) (h2 : 2 ≤ count)
    (h71 : count ≤ 71) :
    (generateMonochromatic base count).length = count ∧
      (∀ c ∈ generateMonochromatic base count,
        c.hsl.h = base.hsl.h ∧ c.hsl.s = base.hsl.s) ∧
      List.Pairwise (fun a b : Color => a.hsl.l < b.hsl.l) (generateMonochromatic base count) ∧
      ((generateMonochromatic base count).map (fun c => c.hsl.l)).head? = some 15 ∧
      ((generateMonochromatic base count).map (fun c => c.hsl.l)).getLast? = some 85 := by
  have hc1 : (0 : ℚ) < (count : ℚ) - 1 := by
    have : (2 : ℚ) ≤ (count : ℚ) := by exact_mod_cast h2
    linarith
  have hc70 : (count : ℚ) - 1 ≤ 70 := by
    have : (count : ℚ) ≤ 71 := by exact_mod_cast h71
    linarith
  have hstep : 1 ≤ (85 - 15) / ((count : ℚ) - 1) := by
    rw [le_div_iff₀ hc1]
    linarith
  refine ⟨by simp [generateMonochromatic], ?_, ?_, ?_, ?_⟩
  · intro c hc
    simp only [generateMonochromatic, List.mem_map, List.mem_range] at hc
    obtain ⟨i, _, rfl⟩ := hc
    exact ⟨rfl, rfl⟩
  · unfold generateMonochromatic
    rw [List.pairwise_map]
    refine (List.pairwise_lt_range count).imp ?_
    intro a b hab
    simp only [hsl_createColorFromHsl]
    refine jround_lt_jround_of_add_one_le ?_
    have hba : (1 : ℚ) ≤ (b : ℚ) - (a : ℚ) := by
      have : (a : ℚ) + 1 ≤ (b : ℚ) := by exact_mod_cast Nat.succ_le_of_lt hab
      linarith
    nlinarith
  · obtain ⟨n, rfl⟩ : ∃ n, count = n + 2 := ⟨count - 2, by omega⟩
    have hr0 : List.range (n + 2) = 0 :: (List.range (n + 1)).map Nat.succ :=
      List.range_succ_eq_map (n + 1)
    unfold generateMonochromatic
    rw [hr0]
    simp only [List.map_cons, List.head?_cons, hsl_createColorFromHsl]
    norm_num
    decide
  · obtain ⟨n, rfl⟩ : ∃ n, count = n + 2 := ⟨count - 2, by omega⟩
    have hr : List.range (n + 2) = List.range (n + 1) ++ [n + 1] := List.range_succ (n + 1)
    have hne : ((n : ℚ) + 2) - 1 ≠ 0 := by
      have : (0 : ℚ) ≤ (n : ℚ) := Nat.cast_nonneg n
      intro hcon
      linarith
    unfold generateMonochromatic
    rw [hr, List.map_append, List.map_append]
    simp only [List.map_cons, List.map_nil, List.getLast?_concat, hsl_createColorFromHsl]
    have harg : (15 : ℚ) + ((n : ℕ) + 1 : ℕ) * ((85 - 15) / (((n + 2 : ℕ) : ℚ) - 1)) = 85 := by
      push_cast
      field_simp
      ring
    rw [harg]
    decide

theorem generateMonochromatic_spec_witness :
    2 ≤ 5 ∧ 5 ≤ 71 ∧ (generateMonochromatic cRed 5).length = 5 ∧
      ((generateMonochromatic cRed 5).map (fun c => c.hsl.l)).head? = some 15 ∧
      ((generateMonochromatic cRed 5).map (fun c => c.hsl.l)).getLast? = some 85 :=
  ⟨by norm_num, by norm_num,
   (generateMonochromatic_spec cRed 5 (by norm_num) (by norm_num)).1,
   (generateMonochromatic_spec cRed 5 (by norm_num) (by norm_num)).2.2.2.1,
   (generateMonochromatic_spec cRed 5 (by norm_num) (by norm_num)).2.2.2.2⟩

/-! ### C5: analogous palettes -/

theorem normalizeHue_of_mem {x : ℚ} (hlo : 0 ≤ x) (hhi : x < 360) : normalizeHue x = x := by
  have ht : ratTrunc (x / 360) = 0 := by
    unfold ratTrunc
    rw [if_pos (div_nonneg hlo (by norm_num))]
    exact Int.floor_eq_zero_iff.mpr
      ⟨div_nonneg hlo (by norm_num), (div_lt_one (by norm_num)).mpr hhi⟩
  unfold normalizeHue jsMod
  rw [ht]
  simp only [Int.cast_zero, mul_zero, sub_zero]
  rw [if_neg (not_lt.mpr hlo)]

theorem normalizeHue_of_neg {x : ℚ} (hlo : -360 < x) (hhi : x < 0) :
    normalizeHue x = x + 360 := by
  have ht : ratTrunc (x / 360) = 0 := by
    unfold ratTrunc
    rw [if_neg (by intro hcon; nlinarith)]
    have hf : ⌊-(x / 360)⌋ = 0 := by
      refine Int.floor_eq_zero_iff.mpr ⟨by linarith, by linarith⟩
    rw [hf]
    norm_num
  unfold normalizeHue jsMod
  rw [ht]
  simp only [Int.cast_zero, mul_zero, sub_zero]
  rw [if_pos hhi]

theorem normalizeHue_of_large {x : ℚ} (hlo : 360 ≤ x) (hhi : x < 720) :
    normalizeHue x = x - 360 := by
  have ht : ratTrunc (x / 360) = 1 := by
    unfold ratTrunc
    rw [if_pos (by positivity)]
    refine Int.floor_eq_iff.mpr ⟨by push_cast; linarith, by push_cast; linarith⟩
  unfold normalizeHue jsMod
  rw [ht]
  push_cast
  rw [if_neg (by intro hcon; linarith)]
  ring

/-- Shifting a data-model hue by at most half a turn and renormalizing
stays within the shift's circular distance and moves off the base hue. -/
theorem normalizeHue_shift (h δ : ℚ) (h0 : 0 ≤ h) (h1 : h < 360) (hd : |δ| ≤ 180) :
    circDist (normalizeHue (h + δ)) h ≤ |δ| ∧ (δ ≠ 0 → normalizeHue (h + δ) ≠ h) := by
  obtain ⟨hd1, hd2⟩ := abs_le.mp hd
  by_cases hneg : h + δ < 0
  · rw [normalizeHue_of_neg (by linarith) hneg]
    unfold circDist
    rw [show h + δ + 360 - h = δ + 360 by ring, abs_of_nonneg (by linarith)]
    constructor
    · calc min (δ + 360) (360 - (δ + 360)) ≤ 360 - (δ + 360) := min_le_right _ _
        _ = -δ := by ring
        _ ≤ |δ| := neg_le_abs δ
    · intro _ hcon
      have : δ = -360 := by linarith [congrArg (fun z => z - h) hcon]
      linarith
  · by_cases hbig : 360 ≤ h + δ
    · rw [normalizeHue_of_large hbig (by linarith)]
      unfold circDist
      rw [show h + δ - 360 - h = δ - 360 by ring, abs_of_nonpos (by linarith), neg_sub]
      constructor
      · calc min (360 - δ) (360 - (360 - δ)) ≤ 360 - (360 - δ) := min_le_right _ _
          _ = δ := by ring
          _ ≤ |δ| := le_abs_self δ
      · intro _ hcon
        have : δ = 360 := by linarith [congrArg (fun z => z - h) hcon]
        linarith
    · rw [normalizeHue_of_mem (by linarith) (by linarith)]
      unfold circDist
      rw [show h + δ - h = δ by ring]
      constructor
      · exact min_le_left _ _
      · intro hδ hcon
        exact hδ (by linarith [congrArg (fun z => z - h) hcon])

/-- C5: `generateAnalogous base 5` returns exactly 5 colors, sorted
ascending by hue, each within 30 degrees circular distance of the base
hue, with the unmodified base color present exactly once and the base
saturation and lightness preserved. -/
theorem generateAnalogous_five_spec (base : Color) (hb0 : 0 ≤ base.hsl.h)
    (hb1 : base.hsl.h < 360) :
    (generateAnalogous base 5).length = 5 ∧
      List.Sorted hueLe (generateAnalogous base 5) ∧
      (∀ c ∈ generateAnalogous base 5, circDist c.hsl.h base.hsl.h ≤ 30) ∧
      (generateAnalogous base 5).count base = 1 ∧
      (∀ c ∈ generateAnalogous base 5, c.hsl.s = base.hsl.s ∧ c.hsl.l = base.hsl.l) := by
  have hform : generateAnalogous base 5 =
      List.insertionSort hueLe
        [base,
         createColorFromHsl ⟨normalizeHue (base.hsl.h + -30), base.hsl.s, base.hsl.l⟩,
         createColorFromHsl ⟨normalizeHue (base.hsl.h + -15), base.hsl.s, base.hsl.l⟩,
         createColorFromHsl ⟨normalizeHue (base.hsl.h + 15), base.hsl.s, base.hsl.l⟩,
         createColorFromHsl ⟨normalizeHue (base.hsl.h + 30), base.hsl.s, base.hsl.l⟩] := by
    unfold generateAnalogous
    norm_num [List.range, List.filter, List.map]
  have hperm := List.perm_insertionSort hueLe
    [base,
     createColorFromHsl ⟨normalizeHue (base.hsl.h + -30), base.hsl.s, base.hsl.l⟩,
     createColorFromHsl ⟨normalizeHue (base.hsl.h + -15), base.hsl.s, base.hsl.l⟩,
     createColorFromHsl ⟨normalizeHue (base.hsl.h + 15), base.hsl.s, base.hsl.l⟩,
     createColorFromHsl ⟨normalizeHue (base.hsl.h + 30), base.hsl.s, base.hsl.l⟩]
  have hm30 := normalizeHue_shift base.hsl.h (-30) hb0 hb1 (by norm_num)
  have hm15 := normalizeHue_shift base.hsl.h (-15) hb0 hb1 (by norm_num)
  have hp15 := normalizeHue_shift base.hsl.h 15 hb0 hb1 (by norm_num)
  have hp30 := normalizeHue_shift base.hsl.h 30 hb0 hb1 (by norm_num)
  refine ⟨?_, ?_, ?_, ?_, ?_⟩
  · rw [hform, hperm.length_eq]
    rfl
  · rw [hform]
    exact List.sorted_insertionSort hueLe _
  · intro c hc
    rw [hform] at hc
    have hc' := (hperm.mem_iff).mp hc
    simp only [List.mem_cons, List.not_mem_nil, or_false] at hc'
    rcases hc' with rfl | rfl | rfl | rfl | rfl
    · unfold circDist
      simp
    · refine le_trans hm30.1 (by norm_num)
    · refine le_trans hm15.1 (by norm_num)
    · refine le_trans hp15.1 (by norm_num)
    · refine le_trans hp30.1 (by norm_num)
  · rw [hform, hperm.count_eq]
    have e1 : createColorFromHsl ⟨normalizeHue (base.hsl.h + -30), base.hsl.s, base.hsl.l⟩ ≠
        base := by
      intro hcon
      exact hm30.2 (by norm_num) (congrArg (fun c => c.hsl.h) hcon)
    have e2 : createColorFromHsl ⟨normalizeHue (base.hsl.h + -15), base.hsl.s, base.hsl.l⟩ ≠
        base := by
      intro hcon
      exact hm15.2 (by norm_num) (congrArg (fun c => c.hsl.h) hcon)
    have e3 : createColorFromHsl ⟨normalizeHue (base.hsl.h + 15), base.hsl.s, base.hsl.l⟩ ≠
        base := by
      intro hcon
      exact hp15.2 (by norm_num) (congrArg (fun c => c.hsl.h) hcon)
    have e4 : createColorFromHsl ⟨normalizeHue (base.hsl.h + 30), base.hsl.s, base.hsl.l⟩ ≠
        base := by
      intro hcon
      exact hp30.2 (by norm_num) (congrArg (fun c => c.hsl.h) hcon)
    simp [List.count_cons, e1, e2, e3, e4]
  · intro c hc
    rw [hform] at hc
    have hc' := (hperm.mem_iff).mp hc
    simp only [List.mem_cons, List.not_mem_nil, or_false] at hc'
    rcases hc' with rfl | rfl | rfl | rfl | rfl <;> exact ⟨rfl, rfl⟩

theorem generateAnalogous_five_spec_witness :
    (0 : ℚ) ≤ cRed.hsl.h ∧ cRed.hsl.h < 360 ∧ (generateAnalogous cRed 5).length = 5 ∧
      (generateAnalogous cRed 5).count cRed = 1 :=
  ⟨by norm_num [cRed], by norm_num [cRed],
   (generateAnalogous_five_spec cRed (by norm_num [cRed]) (by norm_num [cRed])).1,
   (generateAnalogous_five_spec cRed (by norm_num [cRed]) (by norm_num [cRed])).2.2.2.1⟩

/-! ### C1: suggestion counts and ranks -/

/-- C1: `generateSuggestions` fails with the InvalidSuggestionCount error
for every count outside 1..10; for every count in 1..10 it succeeds with
suggestions ranked exactly 1..count (no gaps or repeats), and the rank-1
suggestion's palette is the requested scheme applied directly to the
unmodified base color. -/
theorem generateSuggestions_count_spec (rnd : ℕ → ℚ) (base : Color) (scheme : ColorScheme)
    (count : ℤ) (st : ℕ × ℕ) :
    ((count < 1 ∨ 10 < count) →
      generateSuggestions rnd base scheme count st =
        Except.error ("Suggestion count must be between 1 and 10")) ∧
      (1 ≤ count → count ≤ 10 →
        ∃ out rest, generateSuggestions rnd base scheme count st = Except.ok (out, rest) ∧
          out.suggestions.map (fun sg => sg.rank) =
            (List.range count.toNat).map (fun i => i + 1) ∧
          (out.suggestions.map (fun sg => sg.palette.colors)).head? =
            some (generatePalette rnd base scheme 5 st.1).1 ∧
          out.baseColor = base ∧ out.requestedScheme = scheme) := by
  constructor
  · intro hbad
    unfold generateSuggestions
    rw [if_pos hbad]
  · intro hlo hhi
    interval_cases count <;> cases scheme <;>
      exact ⟨_, _, rfl, rfl, rfl, rfl, rfl⟩

/-- A fixed stream of Math.random samples for witnesses. -/
def rnd0 : ℕ → ℚ := fun _ => 0

theorem generateSuggestions_count_spec_witness :
    generateSuggestions rnd0 cRed ColorScheme.analogous 0 ((0, 0)) =
        Except.error ("Suggestion count must be between 1 and 10") ∧
      generateSuggestions rnd0 cRed ColorScheme.analogous 3 ((0, 0)) ≠
        Except.error ("Suggestion count must be between 1 and 10") := by
  constructor
  · exact (generateSuggestions_count_spec rnd0 cRed ColorScheme.analogous 0 ((0, 0))).1
      (by norm_num)
  · obtain ⟨out, rest, heq, -⟩ :=
      (generateSuggestions_count_spec rnd0 cRed ColorScheme.analogous 3 ((0, 0))).2
        (by norm_num) (by norm_num)
    rw [heq]
    simp

/-! ### C9: HSL/RGB round trip -/

/-- `rgbToHsl` computes its lightness field independently of the branches. -/
theorem rgbToHsl_l (rgb : RGB) : (rgbToHsl rgb).l = jround (lightFrac rgb * 100) := rfl

/-- The `q` intermediate of `hslToRgb` (for nonzero saturation). -/
def hslQ (hsl : HSL) : ℚ :=
  if hsl.l / 100 < 1/2 then hsl.l / 100 * (1 + hsl.s / 100)
  else hsl.l / 100 + hsl.s / 100 - hsl.l / 100 * (hsl.s / 100)

/-- `hslToRgb` in the achromatic branch. -/
theorem hslToRgb_achromatic (hsl : HSL) (hs : hsl.s / 100 = 0) :
    hslToRgb hsl =
      ⟨jround (hsl.l / 100 * 255), jround (hsl.l / 100 * 255), jround (hsl.l / 100 * 255)⟩ := by
  simp only [hslToRgb]
  rw [if_pos hs]

/-- `hslToRgb` in the chromatic branch, through `hslQ`. -/
theorem hslToRgb_chromatic (hsl : HSL) (hs : ¬ hsl.s / 100 = 0) :
    hslToRgb hsl =
      ⟨jround (hue2rgb (2 * (hsl.l / 100) - hslQ hsl) (hslQ hsl) (hsl.h / 360 + 1/3) * 255),
       jround (hue2rgb (2 * (hsl.l / 100) - hslQ hsl) (hslQ hsl) (hsl.h / 360) * 255),
       jround (hue2rgb (2 * (hsl.l / 100) - hslQ hsl) (hslQ hsl) (hsl.h / 360 - 1/3) * 255)⟩ := by
  simp only [hslToRgb, hslQ]
  rw [if_neg hs]

theorem hue2rgb_eq_q {p q t : ℚ} (h1 : 1/6 ≤ t) (h2 : t < 1/2) : hue2rgb p q t = q := by
  unfold hue2rgb
  dsimp only
  rw [if_neg (by linarith : ¬ t < 0), if_neg (by linarith : ¬ t > 1),
    if_neg (by linarith : ¬ t < 1/6), if_pos h2]

theorem hue2rgb_eq_q_hi {p q t : ℚ} (h1 : 7/6 ≤ t) (h2 : t < 3/2) : hue2rgb p q t = q := by
  unfold hue2rgb
  dsimp only
  rw [if_neg (by linarith : ¬ t < 0), if_pos (by linarith : t > 1),
    if_neg (by linarith : ¬ t - 1 < 1/6), if_pos (by linarith : t - 1 < 1/2)]

theorem hue2rgb_eq_p_hi {p q t : ℚ} (h1 : 2/3 ≤ t) (h2 : t ≤ 1) : hue2rgb p q t = p := by
  unfold hue2rgb
  dsimp only
  rw [if_neg (by linarith : ¬ t < 0), if_neg (by linarith : ¬ t > 1),
    if_neg (by linarith : ¬ t < 1/6), if_neg (by linarith : ¬ t < 1/2),
    if_neg (by linarith : ¬ t < 2/3)]

theorem hue2rgb_eq_p_neg {p q t : ℚ} (h1 : -(1/3) ≤ t) (h2 : t < 0) : hue2rgb p q t = p := by
  unfold hue2rgb
  dsimp only
  rw [if_pos h2, if_neg (by linarith : ¬ t + 1 > 1),
    if_neg (by linarith : ¬ t + 1 < 1/6), if_neg (by linarith : ¬ t + 1 < 1/2),
    if_neg (by linarith : ¬ t + 1 < 2/3)]

theorem hue2rgb_mem {p q : ℚ} (t : ℚ) (hpq : p ≤ q) (ht0 : -1 ≤ t) (_ht1 : t ≤ 2) :
    p ≤ hue2rgb p q t ∧ hue2rgb p q t ≤ q := by
  unfold hue2rgb
  dsimp only
  split_ifs <;> constructor <;> nlinarith

theorem max3_eq {x y z M : ℚ} (hy : y ≤ M) (hz : z ≤ M) (hx : x ≤ M)
    (hmem : x = M ∨ y = M ∨ z = M) : max x (max y z) = M := by
  refine le_antisymm (max_le hx (max_le hy hz)) ?_
  rcases hmem with h | h | h <;> rw [← h]
  · exact le_max_left _ _
  · exact le_trans (le_max_left _ _) (le_max_right _ _)
  · exact le_trans (le_max_right _ _) (le_max_right _ _)

theorem min3_eq {x y z m : ℚ} (hy : m ≤ y) (hz : m ≤ z) (hx : m ≤ x)
    (hmem : x = m ∨ y = m ∨ z = m) : min x (min y z) = m := by
  refine le_antisymm ?_ (le_min hx (le_min hy hz))
  rcases hmem with h | h | h <;> rw [← h]
  · exact min_le_left _ _
  · exact le_trans (min_le_right _ _) (min_le_left _ _)
  · exact le_trans (min_le_right _ _) (min_le_right _ _)

/-- Rounding the two extreme channels perturbs the recovered lightness by
less than half a unit, so the rounded lightness is recovered exactly. -/
theorem light_core (p q : ℚ) (L : ℤ) (hsum : 100 * (p + q) = 2 * (L : ℚ)) :
    jroundZ ((jround (q * 255) / 255 + jround (p * 255) / 255) / 2 * 100) = L := by
  have h1 := jround_le (q * 255)
  have h2 := lt_jround (q * 255)
  have h3 := jround_le (p * 255)
  have h4 := lt_jround (p * 255)
  apply jroundZ_eq
  · linarith
  · linarith

/-- If the three true channel values lie between p and q, with both p and
q attained, the recovered light fraction is the mean of the two rounded
extremes. -/
theorem lightFrac_of_channels (vr vg vb p q : ℚ)
    (hrq : vr ≤ q) (hgq : vg ≤ q) (hbq : vb ≤ q)
    (hpr : p ≤ vr) (hpg : p ≤ vg) (hpb : p ≤ vb)
    (hq : vr = q ∨ vg = q ∨ vb = q) (hp : vr = p ∨ vg = p ∨ vb = p) :
    lightFrac ⟨jround (vr * 255), jround (vg * 255), jround (vb * 255)⟩ =
      (jround (q * 255) / 255 + jround (p * 255) / 255) / 2 := by
  have bndq : ∀ v : ℚ, v ≤ q → jround (v * 255) ≤ jround (q * 255) := fun v hv =>
    jround_mono (by nlinarith)
  have bndp : ∀ v : ℚ, p ≤ v → jround (p * 255) ≤ jround (v * 255) := fun v hv =>
    jround_mono (by nlinarith)
  have hdiv : ∀ a b : ℚ, a ≤ b → a / 255 ≤ b / 255 := fun a b hab => by linarith
  have hmax : rgbMaxC ⟨jround (vr * 255), jround (vg * 255), jround (vb * 255)⟩ =
      jround (q * 255) / 255 := by
    unfold rgbMaxC
    refine max3_eq (hdiv _ _ (bndq _ hgq)) (hdiv _ _ (bndq _ hbq)) (hdiv _ _ (bndq _ hrq)) ?_
    rcases hq with h | h | h
    · exact Or.inl (by rw [h])
    · exact Or.inr (Or.inl (by rw [h]))
    · exact Or.inr (Or.inr (by rw [h]))
  have hmin : rgbMinC ⟨jround (vr * 255), jround (vg * 255), jround (vb * 255)⟩ =
      jround (p * 255) / 255 := by
    unfold rgbMinC
    refine min3_eq (hdiv _ _ (bndp _ hpg)) (hdiv _ _ (bndp _ hpb)) (hdiv _ _ (bndp _ hpr)) ?_
    rcases hp with h | h | h
    · exact Or.inl (by rw [h])
    · exact Or.inr (Or.inl (by rw [h]))
    · exact Or.inr (Or.inr (by rw [h]))
  unfold lightFrac
  rw [hmax, hmin]

/-- In every sixth of the hue circle, one channel sits on the q plateau,
one on the p plateau, and the third between them, so the recovered light
fraction is the mean of the rounded extremes. -/
theorem light_roundtrip_chromatic (p q h : ℚ) (hpq : p ≤ q) (hh0 : 0 ≤ h) (hh1 : h < 1) :
    lightFrac ⟨jround (hue2rgb p q (h + 1/3) * 255), jround (hue2rgb p q h * 255),
        jround (hue2rgb p q (h - 1/3) * 255)⟩ =
      (jround (q * 255) / 255 + jround (p * 255) / 255) / 2 := by
  by_cases c1 : h < 1/6
  · have hvr : hue2rgb p q (h + 1/3) = q := hue2rgb_eq_q (by linarith) (by linarith)
    have hvb : hue2rgb p q (h - 1/3) = p := hue2rgb_eq_p_neg (by linarith) (by linarith)
    obtain ⟨hg1, hg2⟩ := hue2rgb_mem h hpq (by linarith) (by linarith)
    exact lightFrac_of_channels _ _ _ p q hvr.le hg2 (hvb.le.trans hpq)
      (hpq.trans_eq hvr.symm) hg1 hvb.ge (Or.inl hvr) (Or.inr (Or.inr hvb))
  · by_cases c2 : h < 1/3
    · have hvg : hue2rgb p q h = q := hue2rgb_eq_q (by linarith) (by linarith)
      have hvb : hue2rgb p q (h - 1/3) = p := hue2rgb_eq_p_neg (by linarith) (by linarith)
      obtain ⟨hr1, hr2⟩ := hue2rgb_mem (h + 1/3) hpq (by linarith) (by linarith)
      exact lightFrac_of_channels _ _ _ p q hr2 hvg.le (hvb.le.trans hpq)
        hr1 (hpq.trans_eq hvg.symm) hvb.ge (Or.inr (Or.inl hvg)) (Or.inr (Or.inr hvb))
    · by_cases c3 : h < 1/2
      · have hvg : hue2rgb p q h = q := hue2rgb_eq_q (by linarith) (by linarith)
        have hvr : hue2rgb p q (h + 1/3) = p := hue2rgb_eq_p_hi (by linarith) (by linarith)
        obtain ⟨hb1, hb2⟩ := hue2rgb_mem (h - 1/3) hpq (by linarith) (by linarith)
        exact lightFrac_of_channels _ _ _ p q (hvr.le.trans hpq) hvg.le hb2
          hvr.ge (hpq.trans_eq hvg.symm) hb1 (Or.inr (Or.inl hvg)) (Or.inl hvr)
      · by_cases c4 : h < 2/3
        · have hvb : hue2rgb p q (h - 1/3) = q := hue2rgb_eq_q (by linarith) (by linarith)
          have hvr : hue2rgb p q (h + 1/3) = p := hue2rgb_eq_p_hi (by linarith) (by linarith)
          obtain ⟨hg1, hg2⟩ := hue2rgb_mem h hpq (by linarith) (by linarith)
          exact lightFrac_of_channels _ _ _ p q (hvr.le.trans hpq) hg2 hvb.le
            hvr.ge hg1 (hpq.trans_eq hvb.symm) (Or.inr (Or.inr hvb)) (Or.inl hvr)
        · by_cases c5 : h < 5/6
          · have hvb : hue2rgb p q (h - 1/3) = q := hue2rgb_eq_q (by linarith) (by linarith)
            have hvg : hue2rgb p q h = p := hue2rgb_eq_p_hi (by linarith) (by linarith)
            obtain ⟨hr1, hr2⟩ := hue2rgb_mem (h + 1/3) hpq (by linarith) (by linarith)
            exact lightFrac_of_channels _ _ _ p q hr2 (hvg.le.trans hpq) hvb.le
              hr1 hvg.ge (hpq.trans_eq hvb.symm) (Or.inr (Or.inr hvb)) (Or.inr (Or.inl hvg))
          · have hvr : hue2rgb p q (h + 1/3) = q := hue2rgb_eq_q_hi (by linarith) (by linarith)
            have hvg : hue2rgb p q h = p := hue2rgb_eq_p_hi (by linarith) (by linarith)
            obtain ⟨hb1, hb2⟩ := hue2rgb_mem (h - 1/3) hpq (by linarith) (by linarith)
            exact lightFrac_of_channels _ _ _ p q hvr.le (hvg.le.trans hpq) hb2
              (hpq.trans_eq hvr.symm) hvg.ge hb1 (Or.inl hvr) (Or.inr (Or.inl hvg))

/-- C9 counterexample: for the valid HSL input (100, 1, 30) the round trip
through `hslToRgb` and `rgbToHsl` returns hue 120, off by 20, violating
the claimed one-unit bound. -/
theorem hsl_roundtrip_hue_counterexample :
    (rgbToHsl (hslToRgb ⟨100, 1, 30⟩)).h = 120 ∧
      ¬ |(rgbToHsl (hslToRgb ⟨100, 1, 30⟩)).h - 100| ≤ 1 := by
  decide

/-- C9 amended: for every HSL triple with integer hue in 0..359 and
integer saturation and lightness in 0..100, the lightness component of
`rgbToHsl` after `hslToRgb` equals the input lightness exactly (hence
differs by at most one unit); the hue and saturation components do not
obey the one-unit bound in general. -/
theorem hsl_roundtrip_lightness (H S L : ℤ) (hH0 : 0 ≤ H) (hH1 : H < 360)
    (hS0 : 0 ≤ S) (hS1 : S ≤ 100) (hL0 : 0 ≤ L) (hL1 : L ≤ 100) :
    (rgbToHsl (hslToRgb ⟨(H : ℚ), (S : ℚ), (L : ℚ)⟩)).l = (L : ℚ) := by
  have hl0 : (0 : ℚ) ≤ (L : ℚ) / 100 := div_nonneg (by exact_mod_cast hL0) (by norm_num)
  have hl1 : (L : ℚ) / 100 ≤ 1 := by
    rw [div_le_one (by norm_num : (0 : ℚ) < 100)]
    exact_mod_cast hL1
  have hs0 : (0 : ℚ) ≤ (S : ℚ) / 100 := div_nonneg (by exact_mod_cast hS0) (by norm_num)
  have hs1 : (S : ℚ) / 100 ≤ 1 := by
    rw [div_le_one (by norm_num : (0 : ℚ) < 100)]
    exact_mod_cast hS1
  have hh0 : (0 : ℚ) ≤ (H : ℚ) / 360 := div_nonneg (by exact_mod_cast hH0) (by norm_num)
  have hh1 : (H : ℚ) / 360 < 1 := by
    rw [div_lt_one (by norm_num : (0 : ℚ) < 360)]
    exact_mod_cast hH1
  by_cases hs : ((S : ℚ)) / 100 = 0
  · rw [hslToRgb_achromatic _ hs, rgbToHsl_l]
    have hlf := lightFrac_of_channels ((L : ℚ) / 100) ((L : ℚ) / 100) ((L : ℚ) / 100)
      ((L : ℚ) / 100) ((L : ℚ) / 100) le_rfl le_rfl le_rfl le_rfl le_rfl le_rfl
      (Or.inl rfl) (Or.inl rfl)
    show jround (lightFrac ⟨jround ((L : ℚ) / 100 * 255), jround ((L : ℚ) / 100 * 255),
      jround ((L : ℚ) / 100 * 255)⟩ * 100) = (L : ℚ)
    rw [hlf]
    exact jround_eq_intCast (light_core ((L : ℚ) / 100) ((L : ℚ) / 100) L (by ring))
  · have hpq : 2 * ((L : ℚ) / 100) - hslQ ⟨(H : ℚ), (S : ℚ), (L : ℚ)⟩ ≤
        hslQ ⟨(H : ℚ), (S : ℚ), (L : ℚ)⟩ := by
      unfold hslQ
      dsimp only
      split_ifs with hcase <;> nlinarith
    rw [hslToRgb_chromatic _ hs, rgbToHsl_l]
    show jround (lightFrac
      ⟨jround (hue2rgb (2 * ((L : ℚ) / 100) - hslQ ⟨(H : ℚ), (S : ℚ), (L : ℚ)⟩)
          (hslQ ⟨(H : ℚ), (S : ℚ), (L : ℚ)⟩) ((H : ℚ) / 360 + 1/3) * 255),
       jround (hue2rgb (2 * ((L : ℚ) / 100) - hslQ ⟨(H : ℚ), (S : ℚ), (L : ℚ)⟩)
          (hslQ ⟨(H : ℚ), (S : ℚ), (L : ℚ)⟩) ((H : ℚ) / 360) * 255),
       jround (hue2rgb (2 * ((L : ℚ) / 100) - hslQ ⟨(H : ℚ), (S : ℚ), (L : ℚ)⟩)
          (hslQ ⟨(H : ℚ), (S : ℚ), (L : ℚ)⟩) ((H : ℚ) / 360 - 1/3) * 255)⟩ * 100) = (L : ℚ)
    rw [light_roundtrip_chromatic _ _ _ hpq hh0 hh1]
    exact jround_eq_intCast
      (light_core (2 * ((L : ℚ) / 100) - hslQ ⟨(H : ℚ), (S : ℚ), (L : ℚ)⟩)
        (hslQ ⟨(H : ℚ), (S : ℚ), (L : ℚ)⟩) L (by ring))

theorem hsl_roundtrip_lightness_witness :
    (0 : ℤ) ≤ 200 ∧ (200 : ℤ) < 360 ∧ (0 : ℤ) ≤ 100 ∧ (100 : ℤ) ≤ 100 ∧
      (0 : ℤ) ≤ 30 ∧ (30 : ℤ) ≤ 100 ∧
      (rgbToHsl (hslToRgb ⟨(200 : ℚ), (100 : ℚ), (30 : ℚ)⟩)).l = (30 : ℚ) := by
  refine ⟨by norm_num, by norm_num, by norm_num, by norm_num, by norm_num, by norm_num, ?_⟩
  have h := hsl_roundtrip_lightness 200 100 30 (by norm_num) (by norm_num) (by norm_num)
    (by norm_num) (by norm_num) (by norm_num)
  exact_mod_cast h
